import Mathlib

/-! Eat-n-Split: friend directory, selection and the two forms.

A shallow embedding of `src/src/App.js`.

Modelling conventions.

* A JavaScript number is an IEEE-754 double, modelled exactly by `Num`: every
  finite double is a whole number of units of 2^-1074, so a finite number is the
  integer count of its units; the two infinities and NaN are separate values.
  Addition and subtraction are the exact integer operation on the units followed
  by rounding to 53 significant bits, ties to even, with overflow to infinity.
  The sign of zero is not modelled: `-0` and `0` are one value, as for `===`.
* A `useState` cell that holds either the empty string `""` or a number is an
  `Option Num`: `none` is `""`, `some n` is the number `n`.
* A friend id is either a number (the three initial friends) or a string
  (`crypto.randomUUID()`); `===` never identifies a number with a string.
* The value produced by `crypto.randomUUID()` is a parameter of the event that
  uses it.
* A conditionally rendered component loses its local state when it is
  unmounted and starts from its `useState` initial values when mounted again.
-/

namespace EatNSplit

/-! ## JavaScript numbers -/

/-- Units in the number 1: a finite double is a whole number of units of
2^-1074, the smallest positive double. -/
def unitsPerOne : Nat := 2 ^ 1074

/-- The least `i` among `j, j+1, ..., j+n-1` for which `a / 2^i` fits in 53
bits. -/
def shiftFrom (a : Nat) : Nat → Nat → Option Nat
  | 0, _ => none
  | n + 1, j => if a / 2 ^ j < 2 ^ 53 then some j else shiftFrom a n (j + 1)

/-- Rounding of a magnitude of `a` units to the nearest double, ties to even:
keep the 53 leading bits `m`, look at the dropped part `r`, round up when `r` is
above half of the last kept place or is exactly half and `m` is odd. `none` is
overflow: the rounded magnitude is 2^1024 (2^2098 units) or more. No shift up to
2100 fits only for magnitudes of 2^2153 units or more, which overflow too. -/
def roundMagnitude (a : Nat) : Option Nat :=
  match shiftFrom a 2101 0 with
  | none => none
  | some j =>
    let q := 2 ^ j
    let m := a / q
    let r := a % q
    let rounded := (if r * 2 > q ∨ (r * 2 = q ∧ m % 2 = 1) then m + 1 else m) * q
    if rounded < 2 ^ 2098 then some rounded else none

/-- A JavaScript number: a finite double given by its count of units of
2^-1074, plus or minus infinity, or NaN. -/
inductive Num where
  | fin (k : Int)
  | inf (negative : Bool)
  | nan
  deriving DecidableEq, Repr

/-- The double nearest to `k` units (ties to even, overflow to infinity). -/
def Num.round (k : Int) : Num :=
  match roundMagnitude k.natAbs with
  | some m => .fin (if k < 0 then -(m : Int) else (m : Int))
  | none => .inf (decide (k < 0))

/-- The whole number `n` taken exactly, whether or not a double can hold it. -/
def Num.exact (n : Int) : Num :=
  .fin (n * unitsPerOne)

/-- The number a whole-number literal or numeric string denotes: the double
nearest to `n`. -/
def Num.ofInt (n : Int) : Num :=
  Num.round (n * unitsPerOne)

instance instOfNatNum (n : Nat) : OfNat Num n := ⟨Num.ofInt n⟩

/-- Unary minus. -/
def Num.neg : Num → Num
  | .fin k => .fin (-k)
  | .inf s => .inf (!s)
  | .nan => .nan

instance instNegNum : Neg Num := ⟨Num.neg⟩

/-- The operator `+` on two numbers. -/
def Num.add : Num → Num → Num
  | .nan, _ => .nan
  | _, .nan => .nan
  | .inf s, .inf t => if s = t then .inf s else .nan
  | .inf s, .fin _ => .inf s
  | .fin _, .inf t => .inf t
  | .fin a, .fin b => Num.round (a + b)

instance instAddNum : Add Num := ⟨Num.add⟩

/-- The operator `-` on two numbers: `a - b` is `a + (-b)`. -/
instance instSubNum : Sub Num := ⟨fun a b => Num.add a (Num.neg b)⟩

/-- The operator `<` on two numbers; false when either is NaN. -/
def Num.lt : Num → Num → Bool
  | .nan, _ => false
  | _, .nan => false
  | .fin a, .fin b => decide (a < b)
  | .fin _, .inf t => !t
  | .inf s, .fin _ => s
  | .inf s, .inf t => s && !t

/-- The operator `<=` on two numbers; false when either is NaN. -/
def Num.le : Num → Num → Bool
  | .nan, _ => false
  | _, .nan => false
  | .fin a, .fin b => decide (a ≤ b)
  | .fin _, .inf t => !t
  | .inf s, .fin _ => s
  | .inf s, .inf t => s || !t

instance instLTNum : LT Num := ⟨fun a b => Num.lt a b = true⟩

instance instLENum : LE Num := ⟨fun a b => Num.le a b = true⟩

instance instDecidableLtNum (a b : Num) : Decidable (a < b) :=
  inferInstanceAs (Decidable (Num.lt a b = true))

instance instDecidableLeNum (a b : Num) : Decidable (a ≤ b) :=
  inferInstanceAs (Decidable (Num.le a b = true))

/-- JavaScript truthiness of a number: `0` and NaN are falsy. -/
def Num.truthy : Num → Bool
  | .fin k => k != 0
  | .inf _ => true
  | .nan => false

/-! ## Data model -/

/-- Friend identifier: a number literal or a UUID string. -/
inductive Id where
  | num (n : Int)
  | str (s : String)
  deriving DecidableEq, Repr

/-- Template-literal rendering of an id. -/
def Id.render : Id → String
  | .num n => toString n
  | .str s => s

/-- Friend record `{ id, name, image, balance }`. -/
structure Friend where
  id : Id
  name : String
  image : String
  balance : Num
  deriving DecidableEq, Repr

/-- The constant `initialFriends` (App.js lines 6-25). -/
def initialFriends : List Friend :=
  [ { id := .num 118836, name := "Clark",
      image := "https://i.pravatar.cc/48?u=118836", balance := -7 },
    { id := .num 933372, name := "Sarah",
      image := "https://i.pravatar.cc/48?u=933372", balance := 20 },
    { id := .num 499476, name := "Anthony",
      image := "https://i.pravatar.cc/48?u=499476", balance := 0 } ]

/-- Value of the `whoIsPaying` select: `"user"` or `"friend"`. -/
inductive Payer where
  | user
  | friend
  deriving DecidableEq, Repr

/-- JavaScript truthiness of a cell holding `""` or a number:
`""`, `0` and NaN are falsy, every other number is truthy. -/
def truthy : Option Num → Bool
  | none => false
  | some n => n.truthy

/-- JavaScript numeric coercion of a cell holding `""` or a number:
`""` coerces to `0`. -/
def toNumber : Option Num → Num
  | none => 0
  | some n => n

/-! ## `FormSplitBill` (App.js lines 230-279) -/

/-- Local state of `FormSplitBill`: `bill`, `paidByUser`, `whoIsPaying`. -/
structure SplitForm where
  bill : Option Num
  paidByUser : Option Num
  whoIsPaying : Payer
  deriving DecidableEq, Repr

/-- Initial `useState` values of `FormSplitBill`: `""`, `""`, `"user"`. -/
def SplitForm.initial : SplitForm :=
  { bill := none, paidByUser := none, whoIsPaying := .user }

/-- The derived value `paidByFriend = bill ? bill - paidByUser : ""`. -/
def SplitForm.paidByFriend (st : SplitForm) : Option Num :=
  if truthy st.bill then some (toNumber st.bill - toNumber st.paidByUser) else none

/-- Bill `onChange`: `setBill(Number(e.target.value))`; `v` is
`Number(e.target.value)`. -/
def SplitForm.setBill (st : SplitForm) (v : Num) : SplitForm :=
  { st with bill := some v }

/-- Your-expense `onChange`:
`setPaidByUser(Number(e.target.value) > bill ? paidByUser : Number(e.target.value))`;
`v` is `Number(e.target.value)`. -/
def SplitForm.setPaidByUser (st : SplitForm) (v : Num) : SplitForm :=
  { st with paidByUser := if v > toNumber st.bill then st.paidByUser else some v }

/-- Select `onChange`: `setWhoIsPaying(e.target.value)`. -/
def SplitForm.setWhoIsPaying (st : SplitForm) (w : Payer) : SplitForm :=
  { st with whoIsPaying := w }

/-- The `handleSubmit` of `FormSplitBill`: `none` when the guard
`if (!bill || !paidByUser) return;` fires, otherwise the argument passed to
`onSplitBill`, namely `whoIsPaying === "user" ? paidByFriend : -paidByUser`. -/
def SplitForm.handleSubmit (st : SplitForm) : Option Num :=
  if !truthy st.bill || !truthy st.paidByUser then none
  else
    match st.whoIsPaying with
    | .user => some (toNumber st.paidByFriend)
    | .friend => some (-(toNumber st.paidByUser))

/-- Entries a user can make in the Split-Bill form. -/
inductive FormEntry where
  | bill (v : Num)
  | yourExpense (v : Num)
  | payer (w : Payer)
  deriving DecidableEq, Repr

/-- One entry applied to the Split-Bill form. -/
def SplitForm.enter (st : SplitForm) : FormEntry → SplitForm
  | .bill v => st.setBill v
  | .yourExpense v => st.setPaidByUser v
  | .payer w => st.setWhoIsPaying w

/-- A sequence of entries applied to the Split-Bill form, first entry first. -/
def SplitForm.enterAll (st : SplitForm) (es : List FormEntry) : SplitForm :=
  es.foldl SplitForm.enter st

/-! ## `FormAddFriend` (App.js lines 199-228) -/

/-- Local state of `FormAddFriend`: `name`, `img`. -/
structure AddForm where
  name : String
  img : String
  deriving DecidableEq, Repr

/-- Initial `useState` values of `FormAddFriend`. -/
def AddForm.initial : AddForm :=
  { name := "", img := "https://i.pravatar.cc/48" }

/-- The `handleSubmit` of `FormAddFriend`: `none` when the guard
`if (!name || !img) return;` fires, otherwise the record passed to
`onAddFriend`; `uuid` is the value of `crypto.randomUUID()` of the render. -/
def AddForm.handleSubmit (st : AddForm) (uuid : String) : Option Friend :=
  if st.name = "" || st.img = "" then none
  else some { id := .str uuid, name := st.name,
              image := st.img ++ "?=" ++ (Id.str uuid).render, balance := 0 }

/-! ## `App` (App.js lines 35-155) -/

/-- State of `App`: the three `useState` cells. -/
structure App where
  friends : List Friend
  showAddFriend : Bool
  selectedFriend : Option Friend
  deriving DecidableEq, Repr

/-- Initial `useState` values of `App`. -/
def App.initial : App :=
  { friends := initialFriends, showAddFriend := false, selectedFriend := none }

/-- The expression `curr?.id === id`. -/
def sameId (curr : Option Friend) (id : Id) : Bool :=
  match curr with
  | none => false
  | some c => c.id == id

/-- Handler of the assistant action `addFriend` (lines 58-68). -/
def App.addFriend (s : App) (name : String) (uuid : String) : App :=
  let id := Id.str uuid
  let newFriend : Friend :=
    { id := id, name := name,
      image := "https://i.pravatar.cc/48?u=" ++ id.render, balance := 0 }
  { s with friends := s.friends ++ [newFriend] }

/-- Handler of the assistant action `splitBill` (lines 89-100). -/
def App.splitBill (s : App) (friendId : Id) (amount : Num) : App :=
  { s with
    friends := s.friends.map fun friend =>
      if friend.id = friendId then { friend with balance := friend.balance - amount }
      else friend
    selectedFriend := if sameId s.selectedFriend friendId then none else s.selectedFriend }

/-- Function `handleShowAddFriend` (lines 103-105). -/
def App.handleShowAddFriend (s : App) : App :=
  { s with showAddFriend := !s.showAddFriend }

/-- Function `handleAddFriend` (lines 107-110). -/
def App.handleAddFriend (s : App) (friend : Friend) : App :=
  { s with friends := s.friends ++ [friend], showAddFriend := false }

/-- Function `handleSelection` (lines 112-115). -/
def App.handleSelection (s : App) (friend : Friend) : App :=
  { s with
    selectedFriend := if sameId s.selectedFriend friend.id then none else some friend
    showAddFriend := false }

/-- Function `handleSplitBill` (lines 117-126), called while `sel` is the
selected friend (the Split-Bill form is rendered only then). -/
def App.handleSplitBill (s : App) (sel : Friend) (value : Num) : App :=
  { s with
    friends := s.friends.map fun friend =>
      if friend.id = sel.id then { friend with balance := friend.balance + value }
      else friend
    selectedFriend := none }

/-! ## The whole page: `App` together with the mounted forms -/

/-- State of the page: `App` and the local state of the two forms. -/
structure Page where
  app : App
  addForm : AddForm
  splitForm : SplitForm
  deriving DecidableEq, Repr

/-- The page right after the first render. -/
def Page.initial : Page :=
  { app := App.initial, addForm := AddForm.initial, splitForm := SplitForm.initial }

/-- Events of the page: user interface events and assistant actions. -/
inductive Event where
  | toggleAddFriend
  | select (i : Nat)
  | typeName (v : String)
  | typeImg (v : String)
  | submitAddFriend (uuid : String)
  | typeBill (v : Num)
  | typeYourExpense (v : Num)
  | choosePayer (w : Payer)
  | submitSplitBill
  | assistantAddFriend (name : String) (uuid : String)
  | assistantSplitBill (friendId : Id) (amount : Num)
  deriving DecidableEq, Repr

/-- Whether the control that raises the event is rendered: a row button exists
for each record of the directory, `FormAddFriend` is rendered when
`showAddFriend`, `FormSplitBill` when `selectedFriend` is not null. -/
def Page.enabled (p : Page) : Event → Bool
  | .toggleAddFriend => true
  | .select i => decide (i < p.app.friends.length)
  | .typeName _ => p.app.showAddFriend
  | .typeImg _ => p.app.showAddFriend
  | .submitAddFriend _ => p.app.showAddFriend
  | .typeBill _ => p.app.selectedFriend.isSome
  | .typeYourExpense _ => p.app.selectedFriend.isSome
  | .choosePayer _ => p.app.selectedFriend.isSome
  | .submitSplitBill => p.app.selectedFriend.isSome
  | .assistantAddFriend _ _ => true
  | .assistantSplitBill _ _ => true

/-- Unmounting: a form that is no longer rendered is back at its initial
`useState` values the next time it is mounted. -/
def Page.remount (p : Page) : Page :=
  { p with
    addForm := if p.app.showAddFriend then p.addForm else AddForm.initial
    splitForm := if p.app.selectedFriend.isSome then p.splitForm else SplitForm.initial }

/-- The handler run by each event, before unmounted forms are reset. -/
def Page.handle (p : Page) : Event → Page
  | .toggleAddFriend => { p with app := p.app.handleShowAddFriend }
  | .select i =>
    match p.app.friends[i]? with
    | some friend => { p with app := p.app.handleSelection friend }
    | none => p
  | .typeName v => { p with addForm := { p.addForm with name := v } }
  | .typeImg v => { p with addForm := { p.addForm with img := v } }
  | .submitAddFriend uuid =>
    match p.addForm.handleSubmit uuid with
    | none => p
    | some newFriend =>
      { p with app := p.app.handleAddFriend newFriend, addForm := AddForm.initial }
  | .typeBill v => { p with splitForm := p.splitForm.setBill v }
  | .typeYourExpense v => { p with splitForm := p.splitForm.setPaidByUser v }
  | .choosePayer w => { p with splitForm := p.splitForm.setWhoIsPaying w }
  | .submitSplitBill =>
    match p.app.selectedFriend, p.splitForm.handleSubmit with
    | some sel, some value => { p with app := p.app.handleSplitBill sel value }
    | _, _ => p
  | .assistantAddFriend name uuid => { p with app := p.app.addFriend name uuid }
  | .assistantSplitBill friendId amount => { p with app := p.app.splitBill friendId amount }

/-- One event: its handler, then the re-render. -/
def Page.step (p : Page) (e : Event) : Page :=
  (p.handle e).remount

/-- A sequence of events, first event first; `none` when some event is raised
by a control that is not rendered at that point. -/
def Page.run (p : Page) : List Event → Option Page
  | [] => some p
  | e :: es => if p.enabled e then (p.step e).run es else none

/-- Ids of the records of a directory, in order. -/
def ids (friends : List Friend) : List Id :=
  friends.map Friend.id

/-- Whether the event generates an id that no record of the directory has. An
event that generates no id is fresh. -/
def Page.fresh (p : Page) : Event → Bool
  | .submitAddFriend uuid => decide (Id.str uuid ∉ ids p.app.friends)
  | .assistantAddFriend _ uuid => decide (Id.str uuid ∉ ids p.app.friends)
  | _ => true

/-- A run in which every generated id is fresh when it is generated. -/
def Page.runFresh (p : Page) : List Event → Option Page
  | [] => some p
  | e :: es => if p.enabled e && p.fresh e then (p.step e).runFresh es else none

/-- The record rewritten by a settlement of `d` on the records that satisfy `c`. -/
def settleRecord (c : Friend → Bool) (d : Num) (friend : Friend) : Friend :=
  if c friend then { friend with balance := friend.balance + d } else friend

/-- Sarah as she stands in the initial directory. -/
def sarah : Friend :=
  { id := .num 933372, name := "Sarah",
    image := "https://i.pravatar.cc/48?u=933372", balance := 20 }

/-- Clark as he stands in the initial directory. -/
def clark : Friend :=
  { id := .num 118836, name := "Clark",
    image := "https://i.pravatar.cc/48?u=118836", balance := -7 }

/-- A page with Sarah selected and an arbitrary Split-Bill form. -/
def sarahPage (form : SplitForm) : Page :=
  { app := { friends := initialFriends, showAddFriend := false, selectedFriend := some sarah },
    addForm := AddForm.initial, splitForm := form }

/-- The value an accepted Split-Bill submission passes to `onSplitBill`. -/
def settlementDelta (w : Payer) (b u : Num) : Num :=
  match w with
  | .user => b - u
  | .friend => -u

/-- Anthony as he stands in the initial directory. -/
def anthony : Friend :=
  { id := .num 499476, name := "Anthony",
    image := "https://i.pravatar.cc/48?u=499476", balance := 0 }

/-- The page reached by selecting Sarah, entering bill 100 and then entering
your-expense 0. -/
def zeroExpensePage : Page :=
  sarahPage { bill := some 100, paidByUser := some 0, whoIsPaying := .user }

/-- The page reached by selecting Clark and then pressing the Add-Friend
button. -/
def bothFormsPage : Page :=
  { app := { friends := initialFriends, showAddFriend := true, selectedFriend := some clark },
    addForm := AddForm.initial, splitForm := SplitForm.initial }

/-- The page with the Add-Friend form open and the name Dana typed in. -/
def danaPage : Page :=
  { app := { friends := initialFriends, showAddFriend := true, selectedFriend := none },
    addForm := { name := "Dana", img := "https://i.pravatar.cc/48" },
    splitForm := SplitForm.initial }

/-- A session that uses both add paths and both settlement paths. -/
def sampleSession : List Event :=
  [ .toggleAddFriend, .typeName "Dana", .submitAddFriend "u1",
    .assistantAddFriend "Eve" "u2", .select 3, .typeBill 10, .typeYourExpense 4,
    .submitSplitBill, .assistantSplitBill (.num 933372) 15 ]

/-- The page at the end of `sampleSession`. -/
def samplePage : Page :=
  { app :=
      { friends :=
          [ clark, { sarah with balance := 5 }, anthony,
            { id := .str "u1", name := "Dana", image := "https://i.pravatar.cc/48?=u1",
              balance := 6 },
            { id := .str "u2", name := "Eve", image := "https://i.pravatar.cc/48?u=u2",
              balance := 0 } ]
        showAddFriend := false
        selectedFriend := none }
    addForm := AddForm.initial
    splitForm := SplitForm.initial }

/-- The page reached by selecting Sarah and then letting the assistant split a
bill of 3 with Clark. -/
def sarahAfterClarkPage : Page :=
  { app :=
      { friends := [ { clark with balance := -10 }, sarah, anthony ]
        showAddFriend := false
        selectedFriend := some sarah }
    addForm := AddForm.initial
    splitForm := SplitForm.initial }

/-- The snapshot held by the selection is a record of the directory. -/
def SelectionLive (p : Page) : Prop :=
  ∀ sel, p.app.selectedFriend = some sel → sel ∈ p.app.friends

/-- The page reached by selecting Sarah, entering the bill 9007199254740992
(2^53) and then entering your-expense 1. -/
def largeBillPage : Page :=
  sarahPage { bill := some 9007199254740992, paidByUser := some 1, whoIsPaying := .user }

/-! ## Lemmas on numbers -/

theorem Num.zero_def : (0 : Num) = .fin 0 := by decide!

theorem Num.sub_def (a b : Num) : a - b = a + -b := rfl

theorem Num.add_fin (a b : Int) : Num.fin a + Num.fin b = Num.round (a + b) := rfl

theorem Num.neg_fin (a : Int) : -Num.fin a = Num.fin (-a) := rfl

theorem shiftFrom_le (a : Nat) :
    ∀ (n j0 j : Nat), j0 ≤ j → j < j0 + n → a / 2 ^ j < 2 ^ 53 →
      ∃ i, shiftFrom a n j0 = some i ∧ i ≤ j := by
  intro n
  induction n with
  | zero =>
    intro j0 j h1 h2 _
    omega
  | succ n ih =>
    intro j0 j h1 h2 hfit
    by_cases h0 : a / 2 ^ j0 < 2 ^ 53
    · exact ⟨j0, by rw [shiftFrom, if_pos h0], h1⟩
    · have hne : j0 ≠ j := by
        intro heq
        exact h0 (heq ▸ hfit)
      obtain ⟨i, hi, hle⟩ := ih (j0 + 1) j (by omega) (by omega) hfit
      exact ⟨i, by rw [shiftFrom, if_neg h0, hi], hle⟩

theorem roundMagnitude_exact (a j : Nat) (hj : j ≤ 2100) (hdvd : 2 ^ j ∣ a)
    (hfit : a / 2 ^ j < 2 ^ 53) (hbound : a < 2 ^ 2098) :
    roundMagnitude a = some a := by
  obtain ⟨i, hi, hle⟩ := shiftFrom_le a 2101 0 j (Nat.zero_le _) (by omega) hfit
  have hdvdi : 2 ^ i ∣ a := Nat.dvd_trans (Nat.pow_dvd_pow 2 hle) hdvd
  have hmod : a % 2 ^ i = 0 := Nat.mod_eq_zero_of_dvd hdvdi
  have hpos : 0 < 2 ^ i := Nat.two_pow_pos i
  unfold roundMagnitude
  rw [hi]
  simp only [hmod, Nat.zero_mul]
  have hno : ¬ (0 > 2 ^ i ∨ (0 = 2 ^ i ∧ a / 2 ^ i % 2 = 1)) := by
    rintro (h | ⟨h, _⟩) <;> omega
  rw [if_neg hno, Nat.div_mul_cancel hdvdi, if_pos hbound]

theorem unitsPerOne_pos : 0 < unitsPerOne := by decide!

theorem safe_bound : 2 ^ 53 * unitsPerOne < 2 ^ 2098 := by decide!

theorem safe_top_dvd : 2 ^ 1075 ∣ 2 ^ 53 * unitsPerOne := by decide!

theorem safe_top_fit : 2 ^ 53 * unitsPerOne / 2 ^ 1075 < 2 ^ 53 := by decide!

theorem roundMagnitude_safe (n : Nat) (h : n ≤ 2 ^ 53) :
    roundMagnitude (n * unitsPerOne) = some (n * unitsPerOne) := by
  rcases Nat.lt_or_eq_of_le h with hlt | heq
  · refine roundMagnitude_exact _ 1074 (by omega) (Dvd.intro_left n rfl) ?_ ?_
    · have : n * unitsPerOne / 2 ^ 1074 = n := Nat.mul_div_cancel n unitsPerOne_pos
      rw [this]
      exact hlt
    · exact Nat.lt_of_le_of_lt (Nat.mul_le_mul_right _ h) safe_bound
  · subst heq
    exact roundMagnitude_exact _ 1075 (by omega) safe_top_dvd safe_top_fit safe_bound

theorem Num.round_safe (n : Int) (h : n.natAbs ≤ 2 ^ 53) :
    Num.round (n * unitsPerOne) = Num.exact n := by
  have hmag : (n * (unitsPerOne : Int)).natAbs = n.natAbs * unitsPerOne := by
    rw [Int.natAbs_mul, Int.natAbs_ofNat]
  unfold Num.round Num.exact
  rw [hmag, roundMagnitude_safe n.natAbs h]
  simp only
  congr 1
  split
  · next hneg =>
    rw [← hmag, Int.ofNat_natAbs_of_nonpos (Int.le_of_lt hneg), neg_neg]
  · next hpos =>
    rw [← hmag]
    exact Int.natAbs_of_nonneg (not_lt.mp hpos)

theorem Num.ofInt_safe (n : Int) (h : n.natAbs ≤ 2 ^ 53) : Num.ofInt n = Num.exact n :=
  Num.round_safe n h

theorem Num.exact_add (m n : Int) (h : (m + n).natAbs ≤ 2 ^ 53) :
    Num.exact m + Num.exact n = Num.exact (m + n) := by
  unfold Num.exact
  rw [Num.add_fin, ← add_mul]
  exact Num.round_safe (m + n) h

theorem Num.exact_neg (n : Int) : -Num.exact n = Num.exact (-n) := by
  unfold Num.exact
  rw [Num.neg_fin, neg_mul]

theorem Num.exact_sub (m n : Int) (h : (m - n).natAbs ≤ 2 ^ 53) :
    Num.exact m - Num.exact n = Num.exact (m - n) := by
  rw [Num.sub_def, Num.exact_neg, sub_eq_add_neg]
  exact Num.exact_add m (-n) (by rwa [← sub_eq_add_neg])

theorem Num.not_gt_of_le (a b : Num) (h : a ≤ b) : ¬ a > b := by
  change Num.le a b = true at h
  change ¬ Num.lt b a = true
  cases a <;> cases b <;> simp_all [Num.le, Num.lt]
  rename_i s t
  cases s <;> cases t <;> simp_all


/-- The model rounds as double arithmetic does on well-known samples:
0.1 + 0.2 is 0.30000000000000004, 0.3 - 0.1 is 0.19999999999999998,
2^53 + 1 is 2^53, the largest double added to itself is infinity, and
infinity minus infinity is NaN. -/
theorem Num.rounding_samples :
    Num.fin (3602879701896397 * 2 ^ 1019) + Num.fin (3602879701896397 * 2 ^ 1020)
      = Num.fin (1351079888211149 * 2 ^ 1022)
    ∧ Num.fin (5404319552844595 * 2 ^ 1020) - Num.fin (3602879701896397 * 2 ^ 1019)
      = Num.fin (7205759403792793 * 2 ^ 1019)
    ∧ (9007199254740992 : Num) + 1 = 9007199254740992
    ∧ Num.fin (9007199254740991 * 2 ^ 2045) + Num.fin (9007199254740991 * 2 ^ 2045)
      = Num.inf false
    ∧ Num.inf false - Num.inf false = Num.nan := by
  decide!

/-! ## Lemmas on the directory -/

theorem settleRecord_id (c : Friend → Bool) (d : Num) (f : Friend) :
    (settleRecord c d f).id = f.id := by
  unfold settleRecord; split <;> rfl

theorem settleRecord_name (c : Friend → Bool) (d : Num) (f : Friend) :
    (settleRecord c d f).name = f.name := by
  unfold settleRecord; split <;> rfl

theorem settleRecord_image (c : Friend → Bool) (d : Num) (f : Friend) :
    (settleRecord c d f).image = f.image := by
  unfold settleRecord; split <;> rfl

theorem settleRecord_hit (c : Friend → Bool) (d : Num) (f : Friend) (h : c f = true) :
    (settleRecord c d f).balance = f.balance + d := by
  simp [settleRecord, h]

theorem settleRecord_miss (c : Friend → Bool) (d : Num) (f : Friend) (h : c f = false) :
    settleRecord c d f = f := by
  simp [settleRecord, h]

theorem ids_map_settleRecord (c : Friend → Bool) (d : Num) (l : List Friend) :
    ids (l.map (settleRecord c d)) = ids l := by
  induction l with
  | nil => rfl
  | cons f l ih =>
    simp only [ids, List.map_cons, List.map_map] at ih ⊢
    rw [ih]
    simp [settleRecord_id]

theorem handleSplitBill_friends (s : App) (sel : Friend) (value : Num) :
    (s.handleSplitBill sel value).friends
      = s.friends.map (settleRecord (fun f => decide (f.id = sel.id)) value) := by
  unfold App.handleSplitBill settleRecord
  simp

theorem splitBill_friends (s : App) (friendId : Id) (amount : Num) :
    (s.splitBill friendId amount).friends
      = s.friends.map (settleRecord (fun f => decide (f.id = friendId)) (-amount)) := by
  unfold App.splitBill settleRecord
  simp only [decide_eq_true_eq]
  rfl

theorem remount_app (p : Page) : p.remount.app = p.app := rfl

/-- Position by position description of a settlement over the directory. -/
theorem map_settleRecord_pointwise (c : Friend → Bool) (d : Num) (l : List Friend)
    (i : Nat) (f : Friend) (h : l[i]? = some f) :
    ∃ g, (l.map (settleRecord c d))[i]? = some g ∧ g.id = f.id ∧ g.name = f.name
      ∧ g.image = f.image ∧ (c f = true → g.balance = f.balance + d)
      ∧ (c f = false → g = f) := by
  refine ⟨settleRecord c d f, ?_, settleRecord_id c d f, settleRecord_name c d f,
    settleRecord_image c d f, settleRecord_hit c d f, settleRecord_miss c d f⟩
  simp [List.getElem?_map, h]

theorem truthy_eq_false_iff (cell : Option Num) :
    truthy cell = false ↔ (cell = none ∨ cell = some 0 ∨ cell = some .nan) := by
  rw [Num.zero_def]
  cases cell with
  | none => simp [truthy]
  | some x => cases x <;> simp [truthy, Num.truthy]

theorem handleSubmit_eq_none_iff (st : SplitForm) :
    st.handleSubmit = none ↔
      (st.bill = none ∨ st.bill = some 0 ∨ st.bill = some .nan
        ∨ st.paidByUser = none ∨ st.paidByUser = some 0 ∨ st.paidByUser = some .nan) := by
  have hb := truthy_eq_false_iff st.bill
  have hu := truthy_eq_false_iff st.paidByUser
  have hguard : st.handleSubmit = none ↔
      (truthy st.bill = false ∨ truthy st.paidByUser = false) := by
    unfold SplitForm.handleSubmit
    cases truthy st.bill <;> cases truthy st.paidByUser <;> cases st.whoIsPaying <;> simp
  rw [hguard, hb, hu]
  simp only [or_assoc]

theorem handleSubmit_accepted (st : SplitForm) (b u : Num)
    (hb : st.bill = some b) (hu : st.paidByUser = some u)
    (hacc : st.handleSubmit.isSome = true) :
    st.handleSubmit = some (settlementDelta st.whoIsPaying b u) := by
  obtain ⟨bill, paid, w⟩ := st
  simp only at hb hu
  subst hb hu
  have hbt : truthy (some b) = true := by
    cases h : truthy (some b) with
    | true => rfl
    | false => simp [SplitForm.handleSubmit, h] at hacc
  have hut : truthy (some u) = true := by
    cases h : truthy (some u) with
    | true => rfl
    | false => simp [SplitForm.handleSubmit, h] at hacc
  cases w <;>
    simp [SplitForm.handleSubmit, SplitForm.paidByFriend, hbt, hut, toNumber,
      settlementDelta]

theorem step_submitSplitBill_accepted (p : Page) (sel : Friend) (value : Num)
    (hsel : p.app.selectedFriend = some sel) (hv : p.splitForm.handleSubmit = some value) :
    (p.step .submitSplitBill).app = p.app.handleSplitBill sel value := by
  simp [Page.step, Page.handle, hsel, hv, remount_app]

theorem step_submitSplitBill_rejected (p : Page)
    (hv : p.splitForm.handleSubmit = none) :
    (p.step .submitSplitBill).app = p.app := by
  simp only [Page.step, Page.handle, hv, remount_app]
  cases p.app.selectedFriend <;> rfl

/-- C1, as stated, fails: after selecting Sarah (balance 20), entering the bill
9007199254740992 and your-expense 1 and submitting with you paying, every value
involved is a whole number held exactly, yet Sarah ends at 9007199254741012 and
not at 20 + (9007199254740992 - 1) = 9007199254741011. -/
theorem manual_settlement_rounds_above_safe_range :
    Page.initial.run [.select 1, .typeBill 9007199254740992, .typeYourExpense 1]
      = some largeBillPage
    ∧ largeBillPage.splitForm.handleSubmit.isSome = true
    ∧ sarah.balance = Num.exact 20
    ∧ largeBillPage.splitForm.bill = some (Num.exact 9007199254740992)
    ∧ largeBillPage.splitForm.paidByUser = some (Num.exact 1)
    ∧ (largeBillPage.step .submitSplitBill).app.friends
        = [clark, { sarah with balance := Num.exact 9007199254741012 }, anthony]
    ∧ Num.exact 9007199254741012 ≠ Num.exact (20 + (9007199254740992 - 1)) := by
  decide!

/-- C1, amended. Manual split-bill settlement: an accepted submission with bill
`b` and your-expense `u`, while `sel` is selected, keeps the length and order of
the directory and the id, name and image of every record, sets the balance of
every record with the id of `sel` to the double-precision result of
`old + (b - u)` when you pay and of `old - u` when the friend pays, leaves every
other record as it was, clears the selection and does not touch the Add-Friend
flag. When the old balance, the bill and your-expense are the whole numbers `m`,
`x`, `y` and the results stay within 2^53 in magnitude, the new balance is
exactly `m + (x - y)`, respectively `m - y`. With bill 100 and your-expense 40
the value applied is 60 when you pay and -40 when the friend pays. -/
theorem manual_split_bill_settlement (p : Page) (sel : Friend) (b u : Num)
    (hsel : p.app.selectedFriend = some sel)
    (hb : p.splitForm.bill = some b) (hu : p.splitForm.paidByUser = some u)
    (hacc : p.splitForm.handleSubmit.isSome = true) :
    (p.step .submitSplitBill).app.friends.length = p.app.friends.length
    ∧ (∀ (i : Nat) (f : Friend), p.app.friends[i]? = some f →
        ∃ g, (p.step .submitSplitBill).app.friends[i]? = some g
          ∧ g.id = f.id ∧ g.name = f.name ∧ g.image = f.image
          ∧ (f.id = sel.id → p.splitForm.whoIsPaying = .user →
              g.balance = f.balance + (b - u))
          ∧ (f.id = sel.id → p.splitForm.whoIsPaying = .friend →
              g.balance = f.balance - u)
          ∧ (f.id = sel.id → p.splitForm.whoIsPaying = .user →
              ∀ m x y : Int, f.balance = Num.exact m → b = Num.exact x → u = Num.exact y →
                (x - y).natAbs ≤ 2 ^ 53 → (m + (x - y)).natAbs ≤ 2 ^ 53 →
                g.balance = Num.exact (m + (x - y)))
          ∧ (f.id = sel.id → p.splitForm.whoIsPaying = .friend →
              ∀ m y : Int, f.balance = Num.exact m → u = Num.exact y →
                (m - y).natAbs ≤ 2 ^ 53 → g.balance = Num.exact (m - y))
          ∧ (f.id ≠ sel.id → g = f))
    ∧ (p.step .submitSplitBill).app.selectedFriend = none
    ∧ (p.step .submitSplitBill).app.showAddFriend = p.app.showAddFriend
    ∧ SplitForm.handleSubmit ⟨some 100, some 40, .user⟩ = some 60
    ∧ SplitForm.handleSubmit ⟨some 100, some 40, .friend⟩ = some (-40) := by
  have hv := handleSubmit_accepted p.splitForm b u hb hu hacc
  have happ := step_submitSplitBill_accepted p sel _ hsel hv
  rw [happ]
  refine ⟨?_, ?_, rfl, rfl, by decide!, by decide!⟩
  · rw [handleSplitBill_friends, List.length_map]
  · intro i f hf
    rw [handleSplitBill_friends]
    obtain ⟨g, hg, hid, hname, himg, hhit, hmiss⟩ :=
      map_settleRecord_pointwise (fun f => decide (f.id = sel.id))
        (settlementDelta p.splitForm.whoIsPaying b u) p.app.friends i f hf
    have huser : f.id = sel.id → p.splitForm.whoIsPaying = .user →
        g.balance = f.balance + (b - u) := by
      intro hsame hw
      rw [hhit (by simpa using hsame), hw]
      rfl
    have hfriend : f.id = sel.id → p.splitForm.whoIsPaying = .friend →
        g.balance = f.balance - u := by
      intro hsame hw
      rw [hhit (by simpa using hsame), hw]
      rfl
    refine ⟨g, hg, hid, hname, himg, huser, hfriend, ?_, ?_, ?_⟩
    · intro hsame hw m x y hm hx hy hxy hres
      rw [huser hsame hw, hm, hx, hy, Num.exact_sub x y hxy, Num.exact_add m (x - y) hres]
    · intro hsame hw m y hm hy hres
      rw [hfriend hsame hw, hm, hy, Num.exact_sub m y hres]
    · intro hne
      exact hmiss (by simpa using hne)

/-- Witness of the amended C1 on the page with Sarah selected, bill 100,
your-expense 40 and you paying: the directory keeps its three records, Sarah
goes from 20 to exactly 80 and the selection is cleared. -/
theorem manual_split_bill_settlement_witness :
    (sarahPage ⟨some 100, some 40, .user⟩).app.selectedFriend = some sarah
    ∧ (SplitForm.handleSubmit ⟨some 100, some 40, .user⟩).isSome = true
    ∧ ((sarahPage ⟨some 100, some 40, .user⟩).step .submitSplitBill).app.friends.length = 3
    ∧ (∃ g, ((sarahPage ⟨some 100, some 40, .user⟩).step .submitSplitBill).app.friends[1]?
          = some g ∧ g.balance = Num.exact 80)
    ∧ ((sarahPage ⟨some 100, some 40, .user⟩).step .submitSplitBill).app.selectedFriend
        = none := by
  have h := manual_split_bill_settlement (sarahPage ⟨some 100, some 40, .user⟩) sarah 100 40
    rfl rfl rfl (by decide!)
  obtain ⟨g, hg, _, _, _, _, _, hexact, _, _⟩ := h.2.1 1 sarah (by decide!)
  exact ⟨rfl, by decide!, h.1,
    ⟨g, hg, hexact rfl rfl 20 100 40 (by decide!) (by decide!) (by decide!)
      (by decide!) (by decide!)⟩,
    h.2.2.1⟩

/-- C2, as stated, fails: on the initial directory `splitBill(118836,
9007199254740992)` finds Clark at -7, both whole numbers held exactly, and
leaves him at -9007199254741000 and not at -7 - 9007199254740992 =
-9007199254740999. -/
theorem assistant_splitBill_rounds_above_safe_range :
    clark.balance = Num.exact (-7)
    ∧ (9007199254740992 : Num) = Num.exact 9007199254740992
    ∧ (App.initial.splitBill (.num 118836) 9007199254740992).friends
        = [{ clark with balance := Num.exact (-9007199254741000) }, sarah, anthony]
    ∧ Num.exact (-9007199254741000) ≠ Num.exact (-7 - 9007199254740992) := by
  decide!

/-- C2, amended. Assistant `splitBill`: the handler keeps the length and order of
the directory and the id, name and image of every record, sets the balance of
every record whose id is `friendId` to the double-precision result of
`old - amount` and leaves every other record as it was; when the old balance and
the amount are the whole numbers `m` and `n` and `m - n` stays within 2^53 in
magnitude the new balance is exactly `m - n`; when no record has that id the
directory is unchanged; on the initial directory `splitBill(933372, 15)` takes
Sarah from 20 to 5. -/
theorem assistant_splitBill_directory (s : App) (friendId : Id) (amount : Num) :
    (s.splitBill friendId amount).friends.length = s.friends.length
    ∧ (∀ (i : Nat) (f : Friend), s.friends[i]? = some f →
        ∃ g, (s.splitBill friendId amount).friends[i]? = some g
          ∧ g.id = f.id ∧ g.name = f.name ∧ g.image = f.image
          ∧ (f.id = friendId → g.balance = f.balance - amount)
          ∧ (f.id = friendId →
              ∀ m n : Int, f.balance = Num.exact m → amount = Num.exact n →
                (m - n).natAbs ≤ 2 ^ 53 → g.balance = Num.exact (m - n))
          ∧ (f.id ≠ friendId → g = f))
    ∧ (friendId ∉ ids s.friends → (s.splitBill friendId amount).friends = s.friends)
    ∧ (App.initial.splitBill (.num 933372) 15).friends
        = [clark, { sarah with balance := 5 }, anthony] := by
  refine ⟨?_, ?_, ?_, by decide!⟩
  · rw [splitBill_friends, List.length_map]
  · intro i f hf
    rw [splitBill_friends]
    obtain ⟨g, hg, hid, hname, himg, hhit, hmiss⟩ :=
      map_settleRecord_pointwise (fun f => decide (f.id = friendId)) (-amount)
        s.friends i f hf
    have hsub : f.id = friendId → g.balance = f.balance - amount := by
      intro hsame
      rw [hhit (by simpa using hsame), Num.sub_def]
    refine ⟨g, hg, hid, hname, himg, hsub, ?_, ?_⟩
    · intro hsame m n hm hn hres
      rw [hsub hsame, hm, hn, Num.exact_sub m n hres]
    · intro hne
      exact hmiss (by simpa using hne)
  · intro hnot
    rw [splitBill_friends]
    conv_rhs => rw [← List.map_id s.friends]
    apply List.map_congr_left
    intro f hf
    apply settleRecord_miss
    simp only [decide_eq_false_iff_not]
    intro hsame
    exact hnot (hsame ▸ List.mem_map_of_mem Friend.id hf)

/-- Witness of the amended C2: no initial friend has the id 1, so
`splitBill(1, 15)` leaves the initial directory as it is, and
`splitBill(933372, 15)` takes Sarah from 20 to exactly 5. -/
theorem assistant_splitBill_directory_witness :
    Id.num 1 ∉ ids App.initial.friends
    ∧ (App.initial.splitBill (.num 1) 15).friends = App.initial.friends
    ∧ (∃ g, (App.initial.splitBill (.num 933372) 15).friends[1]? = some g
          ∧ g.balance = Num.exact 5) := by
  obtain ⟨g, hg, _, _, _, _, hexact, _⟩ :=
    (assistant_splitBill_directory App.initial (.num 933372) 15).2.1 1 sarah (by decide!)
  exact ⟨by decide!,
    (assistant_splitBill_directory App.initial (.num 1) 15).2.2.1 (by decide!),
    ⟨g, hg, hexact rfl 20 15 (by decide!) (by decide!) (by decide!)⟩⟩

/-- C3, as stated, fails: after selecting Sarah, entering bill 100 and entering
your-expense 0, the bill is neither empty nor zero and your-expense is not
empty, yet the submission leaves the directory and the selection as they
were. -/
theorem zero_expense_submission_rejected :
    Page.initial.run [.select 1, .typeBill 100, .typeYourExpense 0] = some zeroExpensePage
    ∧ ¬ ((zeroExpensePage.step .submitSplitBill).app = zeroExpensePage.app ↔
          (zeroExpensePage.splitForm.bill = none ∨ zeroExpensePage.splitForm.bill = some 0
            ∨ zeroExpensePage.splitForm.paidByUser = none)) := by
  refine ⟨by decide!, ?_⟩
  intro h
  have hrej : (zeroExpensePage.step .submitSplitBill).app = zeroExpensePage.app := by decide!
  have hcond := h.mp hrej
  revert hcond
  decide!

/-- C3, amended. While a friend is selected, a Split-Bill submission leaves the
directory and the selection unchanged if and only if the bill is empty or zero
or your-expense is empty or zero (a cell holding NaN, which is falsy too and
which a number input never yields, counts with zero); with a non-zero bill `b`
and a non-zero your-expense `u` the settlement value is computed and applied. -/
theorem split_bill_submission_guard (p : Page) (sel : Friend)
    (hsel : p.app.selectedFriend = some sel) :
    ((p.step .submitSplitBill).app = p.app ↔
      (p.splitForm.bill = none ∨ p.splitForm.bill = some 0
        ∨ p.splitForm.bill = some .nan
        ∨ p.splitForm.paidByUser = none ∨ p.splitForm.paidByUser = some 0
        ∨ p.splitForm.paidByUser = some .nan))
    ∧ (∀ b u : Num, p.splitForm.bill = some b → p.splitForm.paidByUser = some u →
        b ≠ 0 → u ≠ 0 → b ≠ .nan → u ≠ .nan →
        (p.step .submitSplitBill).app
          = p.app.handleSplitBill sel (settlementDelta p.splitForm.whoIsPaying b u)) := by
  constructor
  · rw [← handleSubmit_eq_none_iff]
    constructor
    · intro hsame
      cases hv : p.splitForm.handleSubmit with
      | none => rfl
      | some value =>
        rw [step_submitSplitBill_accepted p sel value hsel hv] at hsame
        have hnone : (p.app.handleSplitBill sel value).selectedFriend = none := rfl
        rw [hsame, hsel] at hnone
        cases hnone
    · exact step_submitSplitBill_rejected p
  · intro b u hb hu hb0 hu0 hbn hun
    have hacc : p.splitForm.handleSubmit.isSome = true := by
      cases hv : p.splitForm.handleSubmit with
      | some value => rfl
      | none =>
        rcases (handleSubmit_eq_none_iff p.splitForm).mp hv with h | h | h | h | h | h
        · rw [hb] at h; cases h
        · rw [hb] at h; exact absurd (Option.some.inj h) hb0
        · rw [hb] at h; exact absurd (Option.some.inj h) hbn
        · rw [hu] at h; cases h
        · rw [hu] at h; exact absurd (Option.some.inj h) hu0
        · rw [hu] at h; exact absurd (Option.some.inj h) hun
    exact step_submitSplitBill_accepted p sel _ hsel
      (handleSubmit_accepted p.splitForm b u hb hu hacc)

/-- Witness of the amended C3 on the page with Sarah selected, bill 100 and
your-expense 0: the submission changes nothing. -/
theorem split_bill_submission_guard_witness :
    zeroExpensePage.app.selectedFriend = some sarah
    ∧ (zeroExpensePage.step .submitSplitBill).app = zeroExpensePage.app :=
  ⟨rfl, (split_bill_submission_guard zeroExpensePage sarah rfl).1.mpr
    (Or.inr (Or.inr (Or.inr (Or.inr (Or.inl rfl)))))⟩

/-- C4 at the failing input: entering bill 100, your-expense 80 and then bill 50
leaves the form with your-expense 80 above the bill 50 and a friend expense of
-30; on the page, submitting that form with Sarah selected takes her balance
from 20 to -10. -/
theorem lowered_bill_leaves_expense_above_bill :
    SplitForm.initial.enterAll [.bill 100, .yourExpense 80, .bill 50]
      = { bill := some 50, paidByUser := some 80, whoIsPaying := .user }
    ∧ (SplitForm.initial.enterAll [.bill 100, .yourExpense 80, .bill 50]).paidByFriend
      = some (-30)
    ∧ ¬ (toNumber (SplitForm.initial.enterAll [.bill 100, .yourExpense 80, .bill 50]).paidByUser
          ≤ toNumber (SplitForm.initial.enterAll [.bill 100, .yourExpense 80, .bill 50]).bill)
    ∧ (Page.initial.run
        [.select 1, .typeBill 100, .typeYourExpense 80, .typeBill 50, .submitSplitBill]).map
          (fun q => q.app.friends)
      = some [clark, { sarah with balance := -10 }, anthony] := by
  decide!

/-- C5 at the failing input: selecting Clark and then pressing the Add-Friend
button leaves the Add-Friend form open while Clark is still selected. -/
theorem add_form_opens_beside_selection :
    Page.initial.run [.select 0, .toggleAddFriend] = some bothFormsPage
    ∧ bothFormsPage.app.showAddFriend = true
    ∧ bothFormsPage.app.selectedFriend = some clark := by
  decide!

/-- C6. Add-Friend form submission: with an empty name or an empty image the
directory, the selection and the form-open flag are unchanged; with a non-empty
name and image the directory is the old one followed by exactly one record,
which has the entered name, balance 0 and the generated id, every earlier record
stays at its position, the size grows by one, the Add-Friend form is closed and
the selection is untouched. -/
theorem add_friend_submission (p : Page) (uuid : String) :
    ((p.addForm.name = "" ∨ p.addForm.img = "") →
      (p.step (.submitAddFriend uuid)).app = p.app)
    ∧ (p.addForm.name ≠ "" → p.addForm.img ≠ "" →
        (p.step (.submitAddFriend uuid)).app.friends
          = p.app.friends ++
              [{ id := .str uuid, name := p.addForm.name,
                 image := p.addForm.img ++ "?=" ++ uuid, balance := 0 }]
        ∧ (p.step (.submitAddFriend uuid)).app.friends.length = p.app.friends.length + 1
        ∧ (∀ (i : Nat) (f : Friend), p.app.friends[i]? = some f →
            (p.step (.submitAddFriend uuid)).app.friends[i]? = some f)
        ∧ (p.step (.submitAddFriend uuid)).app.showAddFriend = false
        ∧ (p.step (.submitAddFriend uuid)).app.selectedFriend = p.app.selectedFriend) := by
  constructor
  · intro hempty
    have hv : p.addForm.handleSubmit uuid = none := by
      simp only [AddForm.handleSubmit, ite_eq_left_iff]
      intro hcontra
      rcases hempty with h | h <;> simp [h] at hcontra
    simp [Page.step, Page.handle, hv, remount_app]
  · intro hname himg
    have hv : p.addForm.handleSubmit uuid
        = some { id := .str uuid, name := p.addForm.name,
                 image := p.addForm.img ++ "?=" ++ uuid, balance := 0 } := by
      simp [AddForm.handleSubmit, hname, himg, Id.render]
    have happ : (p.step (.submitAddFriend uuid)).app
        = p.app.handleAddFriend
            (Friend.mk (.str uuid) p.addForm.name (p.addForm.img ++ "?=" ++ uuid) 0) := by
      simp [Page.step, Page.handle, hv, remount_app]
    rw [happ]
    refine ⟨rfl, ?_, ?_, rfl, rfl⟩
    · simp [App.handleAddFriend]
    · intro i f hf
      have hi : i < p.app.friends.length := by
        by_contra hge
        rw [List.getElem?_eq_none (Nat.le_of_not_lt hge)] at hf
        cases hf
      simp only [App.handleAddFriend]
      rw [List.getElem?_append_left hi]
      exact hf

/-- Witness of C6 on the page with the Add-Friend form open and the name Dana
typed in: the submission appends Dana with balance 0 and closes the form. -/
theorem add_friend_submission_witness :
    danaPage.addForm.name ≠ "" ∧ danaPage.addForm.img ≠ ""
    ∧ (danaPage.step (.submitAddFriend "u1")).app.friends.length = 4
    ∧ (danaPage.step (.submitAddFriend "u1")).app.showAddFriend = false :=
  have h := (add_friend_submission danaPage "u1").2 (by decide!) (by decide!)
  ⟨by decide!, by decide!, h.2.1, h.2.2.2.1⟩

/-! ## Invariants along runs -/

theorem run_invariant (I : Page → Prop)
    (hstep : ∀ p e, I p → p.enabled e = true → I (p.step e)) :
    ∀ (evs : List Event) (p q : Page), I p → p.run evs = some q → I q := by
  intro evs
  induction evs with
  | nil =>
    intro p q hp hrun
    simp only [Page.run, Option.some.injEq] at hrun
    exact hrun ▸ hp
  | cons e es ih =>
    intro p q hp hrun
    simp only [Page.run] at hrun
    split at hrun
    · next hen => exact ih _ _ (hstep p e hp hen) hrun
    · cases hrun

theorem runFresh_invariant (I : Page → Prop)
    (hstep : ∀ p e, I p → p.enabled e = true → p.fresh e = true → I (p.step e)) :
    ∀ (evs : List Event) (p q : Page), I p → p.runFresh evs = some q → I q := by
  intro evs
  induction evs with
  | nil =>
    intro p q hp hrun
    simp only [Page.runFresh, Option.some.injEq] at hrun
    exact hrun ▸ hp
  | cons e es ih =>
    intro p q hp hrun
    simp only [Page.runFresh] at hrun
    split at hrun
    · next hen =>
      simp only [Bool.and_eq_true] at hen
      exact ih _ _ (hstep p e hp hen.1 hen.2) hrun
    · cases hrun

theorem nodup_ids_append_fresh (l : List Friend) (f : Friend)
    (hl : (ids l).Nodup) (hf : f.id ∉ ids l) : (ids (l ++ [f])).Nodup := by
  simp only [ids, List.map_append, List.map_cons, List.map_nil]
  rw [List.nodup_append]
  refine ⟨hl, List.nodup_singleton _, ?_⟩
  intro a ha hb
  rw [List.mem_singleton] at hb
  exact hf (hb ▸ ha)

theorem step_nodup_ids (p : Page) (e : Event) (hp : (ids p.app.friends).Nodup)
    (hfresh : p.fresh e = true) : (ids (p.step e).app.friends).Nodup := by
  rw [Page.step, remount_app]
  cases e with
  | toggleAddFriend => exact hp
  | select i =>
    simp only [Page.handle]
    split <;> exact hp
  | typeName v => exact hp
  | typeImg v => exact hp
  | submitAddFriend uuid =>
    simp only [Page.handle]
    split
    · exact hp
    · next newFriend hv =>
      have hid : newFriend.id = .str uuid := by
        simp only [AddForm.handleSubmit] at hv
        split at hv
        · cases hv
        · cases hv; rfl
      apply nodup_ids_append_fresh _ _ hp
      rw [hid]
      simpa [Page.fresh] using hfresh
  | typeBill v => exact hp
  | typeYourExpense v => exact hp
  | choosePayer w => exact hp
  | submitSplitBill =>
    simp only [Page.handle]
    split
    · simp only [handleSplitBill_friends, ids_map_settleRecord]
      exact hp
    · exact hp
  | assistantAddFriend name uuid =>
    simp only [Page.handle, App.addFriend]
    apply nodup_ids_append_fresh _ _ hp
    simpa [Page.fresh] using hfresh
  | assistantSplitBill friendId amount =>
    simp only [Page.handle, splitBill_friends, ids_map_settleRecord]
    exact hp

/-- C7. Directory ids stay unique: from the initial three-friend directory,
after any sequence of events (manual add-friend, assistant `addFriend`, manual
split-bill, assistant `splitBill` and every other event of the page) in which
each newly generated id differs from all ids already in the directory, no two
records share an id. -/
theorem directory_ids_stay_unique (evs : List Event) (p : Page)
    (hrun : Page.initial.runFresh evs = some p) : (ids p.app.friends).Nodup :=
  runFresh_invariant (fun q => (ids q.app.friends).Nodup)
    (fun q e hq _ hfresh => step_nodup_ids q e hq hfresh)
    evs Page.initial p (by decide!) hrun

/-- Witness of C7 on a session that adds Dana by the form and Eve by the
assistant and settles once by each path. -/
theorem directory_ids_stay_unique_witness :
    Page.initial.runFresh sampleSession = some samplePage
    ∧ (ids samplePage.app.friends).Nodup :=
  ⟨by decide!, directory_ids_stay_unique sampleSession samplePage (by decide!)⟩

/-- C8. Selection toggle: selecting `f` yields no selection when the current
selection is a friend with the id of `f`, and yields `f` when the current
selection is a friend with another id or there is none; selecting the same
friend twice from no selection returns to no selection. -/
theorem selection_toggle (s : App) (f : Friend) :
    (∀ g : Friend, s.selectedFriend = some g → g.id = f.id →
        (s.handleSelection f).selectedFriend = none)
    ∧ (∀ g : Friend, s.selectedFriend = some g → g.id ≠ f.id →
        (s.handleSelection f).selectedFriend = some f)
    ∧ (s.selectedFriend = none → (s.handleSelection f).selectedFriend = some f)
    ∧ (s.selectedFriend = none →
        ((s.handleSelection f).handleSelection f).selectedFriend = none) := by
  refine ⟨?_, ?_, ?_, ?_⟩
  · intro g hg hid
    simp [App.handleSelection, sameId, hg, hid]
  · intro g hg hid
    simp [App.handleSelection, sameId, hg, hid]
  · intro hnone
    simp [App.handleSelection, sameId, hnone]
  · intro hnone
    simp [App.handleSelection, sameId, hnone]

/-- Witness of C8: from the initial state, selecting Sarah selects her and
selecting her again clears the selection. -/
theorem selection_toggle_witness :
    App.initial.selectedFriend = none
    ∧ (App.initial.handleSelection sarah).selectedFriend = some sarah
    ∧ ((App.initial.handleSelection sarah).handleSelection sarah).selectedFriend = none :=
  ⟨rfl, (selection_toggle App.initial sarah).2.2.1 rfl,
    (selection_toggle App.initial sarah).2.2.2 rfl⟩

/-- C9. Over-limit your-expense entry is ignored: with bill `b`, entering a
your-expense `v` with `v > b` leaves your-expense as it was and entering `v`
with `v <= b` sets your-expense to `v`; an empty bill compares as 0; the bill and
the payer are never changed by the entry. -/
theorem over_limit_expense_ignored (st : SplitForm) (v : Num) :
    (∀ b : Num, st.bill = some b → v > b →
        (st.setPaidByUser v).paidByUser = st.paidByUser)
    ∧ (∀ b : Num, st.bill = some b → v ≤ b → (st.setPaidByUser v).paidByUser = some v)
    ∧ (st.bill = none → v > 0 → (st.setPaidByUser v).paidByUser = st.paidByUser)
    ∧ (st.bill = none → v ≤ 0 → (st.setPaidByUser v).paidByUser = some v)
    ∧ (st.setPaidByUser v).bill = st.bill
    ∧ (st.setPaidByUser v).whoIsPaying = st.whoIsPaying := by
  refine ⟨?_, ?_, ?_, ?_, rfl, rfl⟩
  · intro b hb hv
    simp only [SplitForm.setPaidByUser, toNumber, hb]
    rw [if_pos hv]
  · intro b hb hv
    simp only [SplitForm.setPaidByUser, toNumber, hb]
    rw [if_neg (Num.not_gt_of_le v b hv)]
  · intro hb hv
    simp only [SplitForm.setPaidByUser, toNumber, hb]
    rw [if_pos hv]
  · intro hb hv
    simp only [SplitForm.setPaidByUser, toNumber, hb]
    rw [if_neg (Num.not_gt_of_le v 0 hv)]

/-- Witness of C9 on the form with bill 50 and your-expense 20: entering 80 keeps
20, entering 30 sets 30. -/
theorem over_limit_expense_ignored_witness :
    (SplitForm.setPaidByUser ⟨some 50, some 20, .user⟩ 80).paidByUser = some 20
    ∧ (SplitForm.setPaidByUser ⟨some 50, some 20, .user⟩ 30).paidByUser = some 30 :=
  ⟨(over_limit_expense_ignored ⟨some 50, some 20, .user⟩ 80).1 50 rfl (by decide!),
    (over_limit_expense_ignored ⟨some 50, some 20, .user⟩ 30).2.1 50 rfl (by decide!)⟩

theorem splitBill_selection_hit (s : App) (friendId : Id) (amount : Num) (sel : Friend)
    (hsel : s.selectedFriend = some sel) (hid : sel.id = friendId) :
    (s.splitBill friendId amount).selectedFriend = none := by
  simp [App.splitBill, sameId, hsel, hid]

theorem splitBill_selection_miss (s : App) (friendId : Id) (amount : Num) (sel : Friend)
    (hsel : s.selectedFriend = some sel) (hid : sel.id ≠ friendId) :
    (s.splitBill friendId amount).selectedFriend = some sel := by
  simp [App.splitBill, sameId, hsel, hid]

theorem splitBill_keeps_other (s : App) (friendId : Id) (amount : Num) (sel : Friend)
    (hmem : sel ∈ s.friends) (hid : sel.id ≠ friendId) :
    sel ∈ (s.splitBill friendId amount).friends := by
  rw [splitBill_friends, List.mem_map]
  exact ⟨sel, hmem, settleRecord_miss _ _ sel (by simpa using hid)⟩

theorem step_selectionLive (p : Page) (e : Event) (hp : SelectionLive p)
    (hen : p.enabled e = true) : SelectionLive (p.step e) := by
  unfold SelectionLive at hp ⊢
  rw [Page.step, remount_app]
  cases e with
  | toggleAddFriend => exact hp
  | select i =>
    simp only [Page.handle]
    split
    · next friend hget =>
      intro sel hsel
      simp only [App.handleSelection] at hsel ⊢
      split at hsel
      · cases hsel
      · cases hsel
        exact List.getElem?_mem hget
    · exact hp
  | typeName v => exact hp
  | typeImg v => exact hp
  | submitAddFriend uuid =>
    simp only [Page.handle]
    split
    · exact hp
    · intro sel hsel
      exact List.mem_append_left _ (hp sel hsel)
  | typeBill v => exact hp
  | typeYourExpense v => exact hp
  | choosePayer w => exact hp
  | submitSplitBill =>
    simp only [Page.handle]
    split
    · intro sel hsel
      cases hsel
    · exact hp
  | assistantAddFriend name uuid =>
    intro sel hsel
    exact List.mem_append_left _ (hp sel hsel)
  | assistantSplitBill friendId amount =>
    intro sel hsel
    simp only [Page.handle] at hsel ⊢
    cases hcur : p.app.selectedFriend with
    | none => simp [App.splitBill, sameId, hcur] at hsel
    | some cur =>
      by_cases hid : cur.id = friendId
      · rw [splitBill_selection_hit p.app friendId amount cur hcur hid] at hsel
        cases hsel
      · rw [splitBill_selection_miss p.app friendId amount cur hcur hid] at hsel
        rw [← Option.some.inj hsel]
        exact splitBill_keeps_other p.app friendId amount cur (hp cur hcur) hid

/-- C10. Selection is never stale: in every page reached from the initial page
by events whose controls are rendered (a friend is selected from a row of the
current directory), a selected snapshot is a record of the directory with the
same id and the same balance; an assistant `splitBill` on the id of the selected
friend clears the selection, and one on another id keeps the selection and keeps
the selected record in the directory. -/
theorem selection_never_stale (evs : List Event) (p : Page)
    (hrun : Page.initial.run evs = some p) (sel : Friend)
    (hsel : p.app.selectedFriend = some sel) :
    (∃ r ∈ p.app.friends, r.id = sel.id ∧ r.balance = sel.balance ∧ r = sel)
    ∧ (∀ (friendId : Id) (amount : Num),
        (sel.id = friendId → (p.app.splitBill friendId amount).selectedFriend = none)
        ∧ (sel.id ≠ friendId →
            (p.app.splitBill friendId amount).selectedFriend = some sel
            ∧ sel ∈ (p.app.splitBill friendId amount).friends)) := by
  have hlive : SelectionLive p :=
    run_invariant SelectionLive step_selectionLive evs Page.initial p
      (by intro sel hsel; cases hsel) hrun
  refine ⟨⟨sel, hlive sel hsel, rfl, rfl, rfl⟩, ?_⟩
  intro friendId amount
  exact ⟨splitBill_selection_hit p.app friendId amount sel hsel,
    fun hid => ⟨splitBill_selection_miss p.app friendId amount sel hsel hid,
      splitBill_keeps_other p.app friendId amount sel (hlive sel hsel) hid⟩⟩

/-- Witness of C10: after selecting Sarah and an assistant `splitBill` of 3 on
Clark, Sarah is still selected and her snapshot is a record of the directory; an
assistant `splitBill` on Sarah then clears the selection. -/
theorem selection_never_stale_witness :
    Page.initial.run [.select 1, .assistantSplitBill (.num 118836) 3]
      = some sarahAfterClarkPage
    ∧ sarahAfterClarkPage.app.selectedFriend = some sarah
    ∧ (sarahAfterClarkPage.app.splitBill (.num 933372) 15).selectedFriend = none :=
  ⟨by decide!, rfl,
    ((selection_never_stale [.select 1, .assistantSplitBill (.num 118836) 3]
      sarahAfterClarkPage (by decide!) sarah rfl).2 (.num 933372) 15).1 rfl⟩

end EatNSplit
